import Mathlib

/-!
Shallow embedding of the core chart pipeline of the Beetroot repository:
the timeline reconciler (src/utils/nightscout.rs, filter_and_clean_entries),
the status segmenter and duration filter (src/utils/graph/stickers.rs),
the sticker placement search and its accumulation loop
(src/utils/graph/stickers.rs and src/utils/graph/mod.rs), and the
time-to-pixel projection (src/utils/graph/mod.rs, calculate_x_position).

Machine floats of the source (f32) are modelled by the rationals; machine
integers (u64, i64, i32) by Nat and Int, with casts noted where they occur.
The call chrono::Utc::now() is passed in explicitly as the parameter now,
an absolute instant in milliseconds; timezone conversion does not change
the instant, and all comparisons in the source compare instants, so the
timezone string is dropped from the model.
-/

namespace Beetroot

/-- Model of the Entry struct of src/utils/nightscout.rs. The field
date_string is modelled by the outcome of the RFC3339 parse performed by
chrono: none when the field is absent, some none when it is present but
unparseable, and some (some t) when it parses to the absolute instant t in
milliseconds. Glucose values (f32 in the source) are rationals. -/
structure Entry where
  id : Option String
  sgv : ℚ
  direction : Option String
  entry_type : Option String
  dateString : Option (Option Int)
  date : Option Nat
  mills : Option Nat
  mbg : Option ℚ
  deriving DecidableEq, Repr

/-- Models the Rust expression self.date.or(self.mills). -/
def Entry.dateOrMills (e : Entry) : Option Nat :=
  match e.date with
  | some ms => some ms
  | none => e.mills

/-- Models Entry.millis_to_user_timezone as the absolute instant it denotes,
in milliseconds. The source builds the instant from date.or(mills) when a
numeric field is present, otherwise parses date_string as RFC3339, and in
every remaining case falls back to the current time. Failure of
from_timestamp_millis on instants outside the chrono range is not modelled;
all instants considered here are inside that range. -/
def entryTimeMs (now : Int) (e : Entry) : Int :=
  match e.dateOrMills with
  | some ms => (ms : Int)
  | none =>
    match e.dateString with
    | some (some t) => t
    | some none => now
    | none => now

/-- Models the timestamp used by the duplicate check in
filter_and_clean_entries: entry.date.or(entry.mills).unwrap_or(0), cast to
i64. Note it never consults date_string. -/
def dedupTimestamp (e : Entry) : Int :=
  ((e.dateOrMills).getD 0 : Nat)

/-- Models the Rust cast (v * 100.0) as i32: truncation of v * 100 toward
zero. It is computed on the reduced numerator and denominator so that the
definition reduces in the kernel; the lemma scaleValue_eq_floor_ceil below
certifies that it equals the floor of v * 100 for nonnegative v and the
ceiling for negative v. The saturation of the cast at the i32 bounds is not
modelled; all values considered here are far inside those bounds. -/
def scaleValue (v : ℚ) : Int :=
  (v.num * 100).tdiv v.den

/-- Models the same_value computation of filter_and_clean_entries: meter
values are compared when both entries carry one, sensor values when
neither does, and a meter entry never matches a sensor entry. -/
def sameValue (e ex : Entry) : Bool :=
  match e.mbg, ex.mbg with
  | some a, some b => decide (scaleValue a = scaleValue b)
  | none, none => decide (scaleValue e.sgv = scaleValue ex.sgv)
  | _, _ => false

/-- Models the body of the is_duplicate closure of filter_and_clean_entries
for one existing entry: timestamps within 30000 ms and matching values. -/
def dupRel (e ex : Entry) : Bool :=
  decide ((dedupTimestamp e - dedupTimestamp ex).natAbs ≤ 30000) && sameValue e ex

/-- Models the is_duplicate check of filter_and_clean_entries against the
list of already retained entries. -/
def isDuplicate (e : Entry) (acc : List Entry) : Bool :=
  acc.any (fun ex => dupRel e ex)

/-- Models the deduplication loop of filter_and_clean_entries. The HashSet
of seen identifiers is a list with membership; acc is the
processed_entries vector. An entry whose identifier was already seen is
skipped; otherwise its identifier is recorded first and the entry is then
pushed unless the duplicate check against the retained entries fires. -/
def dedupLoop : List Entry → List String → List Entry → List Entry
  | [], _, acc => acc
  | e :: rest, seen, acc =>
    match e.id with
    | some i =>
      if i ∈ seen then dedupLoop rest seen acc
      else if isDuplicate e acc then dedupLoop rest (i :: seen) acc
      else dedupLoop rest (i :: seen) (acc ++ [e])
    | none =>
      if isDuplicate e acc then dedupLoop rest seen acc
      else dedupLoop rest seen (acc ++ [e])

/-- Models the NightscoutError variants reachable from the functions
embedded here. -/
inductive NightscoutError
  | NoEntries
  | MissingData
  deriving DecidableEq, Repr

/-- Models cutoff_time = now - Duration::hours(hours), in milliseconds. -/
def cutoffMs (now : Int) (hours : Nat) : Int :=
  now - (hours : Int) * 3600000

/-- Models the time filtering stage of filter_and_clean_entries: keep the
entries whose instant is at or after the cutoff. -/
def timeFiltered (now : Int) (hours : Nat) (entries : List Entry) : List Entry :=
  entries.filter (fun e => decide (cutoffMs now hours ≤ entryTimeMs now e))

/-- Models the deduplication stage of filter_and_clean_entries, started
with no seen identifiers and no retained entries. -/
def cleanedEntries (l : List Entry) : List Entry :=
  dedupLoop l [] []

/-- Models Nightscout::filter_and_clean_entries of src/utils/nightscout.rs:
fail with NoEntries when the input is empty, when nothing survives the time
filter, or when nothing survives deduplication; otherwise return the
retained entries in their original order. -/
def filter_and_clean_entries (now : Int) (entries : List Entry) (hours : Nat) :
    Except NightscoutError (List Entry) :=
  if entries.isEmpty then .error .NoEntries
  else
    let tf := timeFiltered now hours entries
    if tf.isEmpty then .error .NoEntries
    else
      let processed := cleanedEntries tf
      if processed.isEmpty then .error .NoEntries
      else .ok processed

/-- Glucose status of src/utils/graph/types.rs. -/
inductive GlucoseStatus
  | Low
  | InRange
  | High
  deriving DecidableEq, Repr

/-- Models GlucoseStatus::from_sgv of src/utils/graph/types.rs. -/
def GlucoseStatus.from_sgv (sgv target_low target_high : ℚ) : GlucoseStatus :=
  if sgv < target_low then .Low
  else if target_high < sgv then .High
  else .InRange

/-- Models the scan loop of identify_status_ranges: rest holds the entries
from index i onward, cur is the status of the open range and range_start
its first index. A status change closes the open range at i - 1; the end
of the input closes it at the last index. -/
def identifyGo (target_low target_high : ℚ) :
    List Entry → GlucoseStatus → Nat → Nat → List (GlucoseStatus × Nat × Nat)
  | [], cur, range_start, i => [(cur, range_start, i - 1)]
  | e :: rest, cur, range_start, i =>
    let status := GlucoseStatus.from_sgv e.sgv target_low target_high
    if status ≠ cur then
      (cur, range_start, i - 1) :: identifyGo target_low target_high rest status i (i + 1)
    else
      identifyGo target_low target_high rest cur range_start (i + 1)

/-- Models identify_status_ranges of src/utils/graph/stickers.rs: empty
input gives no ranges, otherwise the scan starts with the classification of
entry 0. The unused timezone argument of the source is dropped. -/
def identify_status_ranges (entries : List Entry) (target_low target_high : ℚ) :
    List (GlucoseStatus × Nat × Nat) :=
  match entries with
  | [] => []
  | e :: rest =>
    identifyGo target_low target_high rest (GlucoseStatus.from_sgv e.sgv target_low target_high) 0 1

/-- Index span of a status range, as the list of indices it covers. -/
def rangeSpan (r : GlucoseStatus × Nat × Nat) : List Nat :=
  List.range' r.2.1 (r.2.2 + 1 - r.2.1)

/-- Models Entry time as seconds, the value of the timestamp() call chrono
applies to the instant of millis_to_user_timezone: milliseconds divided by
1000, rounded toward negative infinity. -/
def entryTimeSec (now : Int) (e : Entry) : Int :=
  (entryTimeMs now e).ediv 1000

/-- Models the body of the loop of filter_ranges_by_duration for one range:
both indices must be inside the entry list, the wall-clock duration in
whole minutes is the absolute difference of the two second timestamps divided
by 60, and the minimal duration is 0 minutes for Low and 30 minutes for
InRange and High. -/
def keepRange (now : Int) (entries : List Entry) : GlucoseStatus × Nat × Nat → Bool
  | (status, start_idx, end_idx) =>
    match entries[start_idx]?, entries[end_idx]? with
    | some es, some ee =>
      let duration_minutes := (entryTimeSec now ee - entryTimeSec now es).natAbs / 60
      let min_duration : Nat :=
        match status with
        | .Low => 0
        | .InRange | .High => 30
      decide (min_duration ≤ duration_minutes)
    | _, _ => false

/-- Models filter_ranges_by_duration of src/utils/graph/stickers.rs: keep
the ranges that pass keepRange, in order. -/
def filter_ranges_by_duration (now : Int) (status_ranges : List (GlucoseStatus × Nat × Nat))
    (entries : List Entry) : List (GlucoseStatus × Nat × Nat) :=
  status_ranges.filter (keepRange now entries)

/-- Models StickerConfig of src/utils/graph/stickers.rs, with f32 fields as
rationals. -/
structure StickerConfig where
  sticker_radius : ℚ
  curve_avoidance_distance : ℚ
  treatment_avoidance_distance : ℚ
  max_attempts : Nat

/-- Models the Default instance of StickerConfig. -/
def StickerConfig.default : StickerConfig :=
  { sticker_radius := 120
    curve_avoidance_distance := 100
    treatment_avoidance_distance := 120
    max_attempts := 500 }

/-- Squared Euclidean distance between two points. -/
def distSq (p q : ℚ × ℚ) : ℚ :=
  (p.1 - q.1) ^ 2 + (p.2 - q.2) ^ 2

/-- Conversion of a normalized candidate position to absolute pixel
coordinates, as computed both inside find_sticker_position and in the
sticker loop of draw_graph. -/
def toAbs (inner_plot_left inner_plot_top inner_plot_w inner_plot_h : ℚ) (c : ℚ × ℚ) : ℚ × ℚ :=
  (inner_plot_left + c.1 * inner_plot_w, inner_plot_top + c.2 * inner_plot_h)

/-- Models the acceptance test of find_sticker_position on one candidate in
absolute coordinates: no overlap with an occupied area (center distance at
least sticker_radius plus the stored radius), no point of the curve within
curve_avoidance_distance, no treatment marker within
treatment_avoidance_distance. The source compares a f32 square root of the
squared distance against the threshold; over the nonnegative thresholds of
StickerConfig this is equivalent to the comparison of the squared distance
against the squared threshold used here. -/
def candidateOk (config : StickerConfig) (occupied_areas : List (ℚ × ℚ × ℚ))
    (points_px treatment_positions : List (ℚ × ℚ)) (pos : ℚ × ℚ) : Bool :=
  let has_collision := occupied_areas.any fun o =>
    decide (distSq pos (o.1, o.2.1) < (config.sticker_radius + o.2.2) ^ 2)
  let too_close_to_curve := points_px.any fun p =>
    decide (distSq pos p < config.curve_avoidance_distance ^ 2)
  let too_close_to_treatments := treatment_positions.any fun t =>
    decide (distSq pos t < config.treatment_avoidance_distance ^ 2)
  !has_collision && !too_close_to_curve && !too_close_to_treatments

/-- Models find_sticker_position of src/utils/graph/stickers.rs. The
randomized candidate generation (jitter around the target range, quadrant
corners, uniform interior points) is abstracted as the given stream of
normalized candidate positions; as in the source, at most max_attempts
candidates are examined and the first one passing the acceptance test is
returned in normalized coordinates, with none on exhaustion. -/
def find_sticker_position (candidates : List (ℚ × ℚ)) (config : StickerConfig)
    (occupied_areas : List (ℚ × ℚ × ℚ)) (points_px treatment_positions : List (ℚ × ℚ))
    (inner_plot_left inner_plot_top inner_plot_w inner_plot_h : ℚ) : Option (ℚ × ℚ) :=
  (candidates.take config.max_attempts).find? fun c =>
    candidateOk config occupied_areas points_px treatment_positions
      (toAbs inner_plot_left inner_plot_top inner_plot_w inner_plot_h c)

/-- Models the sticker loop of draw_graph in src/utils/graph/mod.rs: for
each selected sticker (represented by its candidate stream) run the
placement search against the current occupied areas; on success append the
absolute position with radius sticker_radius to the occupied areas. -/
def placementLoop (config : StickerConfig) (points_px treatment_positions : List (ℚ × ℚ))
    (inner_plot_left inner_plot_top inner_plot_w inner_plot_h : ℚ) :
    List (List (ℚ × ℚ)) → List (ℚ × ℚ × ℚ) → List (ℚ × ℚ × ℚ)
  | [], occupied_areas => occupied_areas
  | cands :: rest, occupied_areas =>
    match find_sticker_position cands config occupied_areas points_px treatment_positions
        inner_plot_left inner_plot_top inner_plot_w inner_plot_h with
    | some c =>
      placementLoop config points_px treatment_positions
        inner_plot_left inner_plot_top inner_plot_w inner_plot_h rest
        (occupied_areas ++
          [(inner_plot_left + c.1 * inner_plot_w, inner_plot_top + c.2 * inner_plot_h,
            config.sticker_radius)])
    | none =>
      placementLoop config points_px treatment_positions
        inner_plot_left inner_plot_top inner_plot_w inner_plot_h rest occupied_areas

/-- Models the calculate_x_position closure of draw_graph in
src/utils/graph/mod.rs: horizontal pixel position of an instant, with
oldest_time and the total range in seconds fixed by the rendered window. -/
def calculate_x_position (inner_plot_left inner_plot_w oldest_time time_range_seconds : ℚ)
    (entry_time : ℚ) : ℚ :=
  let time_from_oldest := entry_time - oldest_time
  let time_ratio := time_from_oldest / time_range_seconds
  inner_plot_left + time_ratio * inner_plot_w

deriving instance DecidableEq for Except

/-- Identifier disjointness between two entries: when the first carries an
identifier, the second does not carry the same one. -/
def idDiff (a b : Entry) : Prop :=
  ∀ i, a.id = some i → b.id ≠ some i

/-- Relation holding between an earlier retained entry a and a later
retained entry b of the deduplicated output: their identifiers differ and
the duplicate relation between b and a does not fire. -/
def noDup (a b : Entry) : Prop :=
  idDiff a b ∧ dupRel b a = false

/-! Concrete entries used to instantiate the theorems below. All of them
use a reference instant now = 3600000 ms with a 1 hour window (cutoff 0)
unless stated otherwise. -/

/-- Sensor sample with value 100 at t = 0 s, as in example scenario 2 of
the specification. -/
def scen2a : Entry :=
  { id := none, sgv := 100, direction := none, entry_type := none,
    dateString := none, date := some 0, mills := none, mbg := none }

/-- Sensor sample with value 100.04 at t = 20 s, as in example scenario 2
of the specification. -/
def scen2b : Entry :=
  { id := none, sgv := mkRat 10004 100, direction := none, entry_type := none,
    dateString := none, date := some 20000, mills := none, mbg := none }

/-- Sensor sample with value 100 at t = 40 s, as in example scenario 2 of
the specification. -/
def scen2c : Entry :=
  { id := none, sgv := 100, direction := none, entry_type := none,
    dateString := none, date := some 40000, mills := none, mbg := none }

/-- First sample of an out-of-order input list: t = 0 s. -/
def ooA : Entry :=
  { id := none, sgv := 100, direction := none, entry_type := none,
    dateString := none, date := some 0, mills := none, mbg := none }

/-- Second sample of an out-of-order input list: t = 200 s. -/
def ooB : Entry :=
  { id := none, sgv := 110, direction := none, entry_type := none,
    dateString := none, date := some 200000, mills := none, mbg := none }

/-- Third sample of an out-of-order input list: t = 100 s, earlier than the
sample listed before it. -/
def ooC : Entry :=
  { id := none, sgv := 120, direction := none, entry_type := none,
    dateString := none, date := some 100000, mills := none, mbg := none }

/-- Recent sample for the windowing scenario: 400 s before the reference
instant now = 14400000 ms (4 h). -/
def freshEntry : Entry :=
  { id := none, sgv := 100, direction := none, entry_type := none,
    dateString := none, date := some 14000000, mills := none, mbg := none }

/-- Stale sample for the windowing scenario: 4 h before the reference
instant, outside a 3 h window. -/
def staleEntry : Entry :=
  { id := none, sgv := 110, direction := none, entry_type := none,
    dateString := none, date := some 0, mills := none, mbg := none }

/-- Sample with identifier abc at t = 0 s, as in example scenario 1 of the
specification. -/
def dupIdA : Entry :=
  { id := some "abc", sgv := 100, direction := none, entry_type := none,
    dateString := none, date := some 0, mills := none, mbg := none }

/-- Later sample with the same identifier abc and a different value, which
the reconciler drops. -/
def dupIdB : Entry :=
  { id := some "abc", sgv := 150, direction := none, entry_type := none,
    dateString := none, date := some 60000, mills := none, mbg := none }

/-- Segmentation scenario, sample 0: value 60 (Low) at t = 0 s. -/
def segA : Entry :=
  { id := none, sgv := 60, direction := none, entry_type := none,
    dateString := none, date := some 0, mills := none, mbg := none }

/-- Segmentation scenario, sample 1: value 65 (Low) at t = 300 s. -/
def segB : Entry :=
  { id := none, sgv := 65, direction := none, entry_type := none,
    dateString := none, date := some 300000, mills := none, mbg := none }

/-- Segmentation scenario, sample 2: value 100 (InRange) at t = 600 s. -/
def segC : Entry :=
  { id := none, sgv := 100, direction := none, entry_type := none,
    dateString := none, date := some 600000, mills := none, mbg := none }

/-- Segmentation scenario, sample 3: value 200 (High) at t = 2400 s. -/
def segD : Entry :=
  { id := none, sgv := 200, direction := none, entry_type := none,
    dateString := none, date := some 2400000, mills := none, mbg := none }

/-- The four samples of the segmentation scenario. -/
def segEntries : List Entry := [segA, segB, segC, segD]

/-- The status ranges of the segmentation scenario under thresholds 70 and
180: a 5 minute Low run, a single InRange sample, a single High sample. -/
def segRanges : List (GlucoseStatus × Nat × Nat) :=
  [(.Low, 0, 1), (.InRange, 2, 2), (.High, 3, 3)]

/-- Sample with no numeric timestamp whose date string parses to t = 500 s,
value 100. -/
def noTsA : Entry :=
  { id := none, sgv := 100, direction := none, entry_type := none,
    dateString := some (some 500000), date := none, mills := none, mbg := none }

/-- Sample with no numeric timestamp whose date string parses to t = 900 s,
400 s later than noTsA, with the same value 100. -/
def noTsB : Entry :=
  { id := none, sgv := 100, direction := none, entry_type := none,
    dateString := some (some 900000), date := none, mills := none, mbg := none }

end Beetroot

namespace Beetroot

/-! Auxiliary lemmas about the embedded definitions. -/

/-- Certifies that scaleValue computes the truncation toward zero of
v * 100: the floor for nonnegative v and the ceiling for negative v. -/
theorem scaleValue_eq_floor_ceil (v : ℚ) :
    scaleValue v = if 0 ≤ v then ⌊v * 100⌋ else ⌈v * 100⌉ := by
  have hden0 : ((v.den : ℕ) : ℚ) ≠ 0 := Nat.cast_ne_zero.mpr v.den_nz
  have hv100 : v * 100 = ((v.num * 100 : ℤ) : ℚ) / ((v.den : ℕ) : ℚ) := by
    conv_lhs => rw [← Rat.num_div_den v]
    push_cast
    ring
  unfold scaleValue
  by_cases h : 0 ≤ v
  · have hnum : 0 ≤ v.num := Rat.num_nonneg.mpr h
    rw [if_pos h, hv100, Rat.floor_intCast_div_natCast,
      Int.tdiv_eq_ediv (by positivity) (Int.natCast_nonneg _)]
  · have hnum : v.num < 0 := lt_of_not_ge fun hh => h (Rat.num_nonneg.mp hh)
    rw [if_neg h, hv100]
    have h1 : (v.num * 100).tdiv v.den = -((-(v.num * 100)).tdiv v.den) := by
      rw [Int.neg_tdiv, neg_neg]
    have h2 : (-(v.num * 100)).tdiv v.den = (-(v.num * 100)) / (v.den : ℤ) :=
      Int.tdiv_eq_ediv (by nlinarith) (Int.natCast_nonneg _)
    have h3 : (-(v.num * 100) : ℤ) / (v.den : ℤ) =
        ⌊((-(v.num * 100) : ℤ) : ℚ) / ((v.den : ℕ) : ℚ)⌋ :=
      (Rat.floor_intCast_div_natCast _ _).symm
    have h4 : ((-(v.num * 100) : ℤ) : ℚ) / ((v.den : ℕ) : ℚ) =
        -(((v.num * 100 : ℤ) : ℚ) / ((v.den : ℕ) : ℚ)) := by
      push_cast
      ring
    rw [h1, h2, h3, h4, Int.floor_neg, neg_neg]

/-- The deduplication loop only ever appends to the accumulator, and what
it appends is a subsequence of the remaining input. -/
theorem dedupLoop_eq_append (rest : List Entry) : ∀ seen acc,
    ∃ l, dedupLoop rest seen acc = acc ++ l ∧ l.Sublist rest := by
  induction rest with
  | nil => intro seen acc; exact ⟨[], by simp [dedupLoop]⟩
  | cons e rest ih =>
    intro seen acc
    rcases he : e.id with _ | i
    · by_cases hd : isDuplicate e acc
      · obtain ⟨l, h, hs⟩ := ih seen acc
        exact ⟨l, by simp [dedupLoop, he, hd, h], hs.cons e⟩
      · obtain ⟨l, h, hs⟩ := ih seen (acc ++ [e])
        refine ⟨e :: l, ?_, hs.cons₂ e⟩
        simp [dedupLoop, he, hd, h]
    · by_cases hi : i ∈ seen
      · obtain ⟨l, h, hs⟩ := ih seen acc
        exact ⟨l, by simp [dedupLoop, he, hi, h], hs.cons e⟩
      · by_cases hd : isDuplicate e acc
        · obtain ⟨l, h, hs⟩ := ih (i :: seen) acc
          exact ⟨l, by simp [dedupLoop, he, hi, hd, h], hs.cons e⟩
        · obtain ⟨l, h, hs⟩ := ih (i :: seen) (acc ++ [e])
          refine ⟨e :: l, ?_, hs.cons₂ e⟩
          simp [dedupLoop, he, hi, hd, h]

/-- The deduplicated output is a subsequence of the input. -/
theorem cleanedEntries_sublist (l : List Entry) : (cleanedEntries l).Sublist l := by
  obtain ⟨m, h, hs⟩ := dedupLoop_eq_append l [] []
  simpa [cleanedEntries, h] using hs

/-- The duplicate check against a list of retained entries fails exactly
when it fails against every retained entry. -/
theorem isDuplicate_eq_false_iff (e : Entry) (acc : List Entry) :
    isDuplicate e acc = false ↔ ∀ a ∈ acc, dupRel e a = false := by
  simp [isDuplicate]

/-- Invariant of the deduplication loop: provided every accumulated entry
has its identifier among the seen ones, the final output is pairwise free
of identifier matches and of firing duplicate relations. -/
theorem dedupLoop_pairwise (rest : List Entry) : ∀ seen acc,
    (∀ a ∈ acc, ∀ i, a.id = some i → i ∈ seen) →
    acc.Pairwise noDup →
    (dedupLoop rest seen acc).Pairwise noDup := by
  induction rest with
  | nil => intro seen acc _ h2; simpa [dedupLoop] using h2
  | cons e rest ih =>
    intro seen acc h1 h2
    rcases he : e.id with _ | i
    · by_cases hd : isDuplicate e acc
      · simpa [dedupLoop, he, hd] using ih seen acc h1 h2
      · have hd' : isDuplicate e acc = false := by simpa using hd
        simp only [dedupLoop, he, hd', Bool.false_eq_true, if_false]
        refine ih seen (acc ++ [e]) ?_ ?_
        · intro a ha j hj
          rcases List.mem_append.mp ha with ha | ha
          · exact h1 a ha j hj
          · simp only [List.mem_singleton] at ha
            subst ha
            simp [he] at hj
        · refine List.pairwise_append.mpr ⟨h2, List.pairwise_singleton _ _, ?_⟩
          intro a ha b hb
          simp only [List.mem_singleton] at hb
          rw [hb]
          refine ⟨fun j hj => by simp [he], ?_⟩
          exact (isDuplicate_eq_false_iff e acc).mp hd' a ha
    · by_cases hi : i ∈ seen
      · simpa [dedupLoop, he, hi] using ih seen acc h1 h2
      · by_cases hd : isDuplicate e acc
        · simp only [dedupLoop, he, hi, if_false, hd, if_true]
          refine ih (i :: seen) acc ?_ h2
          exact fun a ha j hj => List.mem_cons_of_mem _ (h1 a ha j hj)
        · have hd' : isDuplicate e acc = false := by simpa using hd
          simp only [dedupLoop, he, hi, hd', Bool.false_eq_true, if_false]
          refine ih (i :: seen) (acc ++ [e]) ?_ ?_
          · intro a ha j hj
            rcases List.mem_append.mp ha with ha | ha
            · exact List.mem_cons_of_mem _ (h1 a ha j hj)
            · simp only [List.mem_singleton] at ha
              subst ha
              rw [he] at hj
              cases hj
              exact List.mem_cons_self _ _
          · refine List.pairwise_append.mpr ⟨h2, List.pairwise_singleton _ _, ?_⟩
            intro a ha b hb
            simp only [List.mem_singleton] at hb
            rw [hb]
            constructor
            · intro j hj hj'
              rw [he] at hj'
              cases hj'
              exact hi (h1 a ha _ hj)
            · exact (isDuplicate_eq_false_iff e acc).mp hd' a ha

/-- The deduplicated output carries the pairwise invariant. -/
theorem cleanedEntries_pairwise (l : List Entry) : (cleanedEntries l).Pairwise noDup :=
  dedupLoop_pairwise l [] [] (by simp) List.Pairwise.nil

/-- A list already satisfying the pairwise invariant, with no identifier
among the seen ones and no duplicate relation against the accumulator,
passes through the deduplication loop unchanged. -/
theorem dedupLoop_fixed (l : List Entry) : ∀ seen acc,
    (∀ e ∈ l, ∀ i, e.id = some i → i ∉ seen) →
    (∀ e ∈ l, ∀ a ∈ acc, dupRel e a = false) →
    l.Pairwise noDup →
    dedupLoop l seen acc = acc ++ l := by
  induction l with
  | nil => intro seen acc _ _ _; simp [dedupLoop]
  | cons e rest ih =>
    intro seen acc h1 h2 hp
    have hd' : isDuplicate e acc = false :=
      (isDuplicate_eq_false_iff e acc).mpr (h2 e (List.mem_cons_self _ _))
    have hp_tail : rest.Pairwise noDup := hp.of_cons
    have hp_head : ∀ b ∈ rest, noDup e b := fun b hb => List.rel_of_pairwise_cons hp hb
    rcases he : e.id with _ | i
    · rw [show dedupLoop (e :: rest) seen acc =
          dedupLoop rest seen (acc ++ [e]) by simp [dedupLoop, he, hd']]
      rw [ih seen (acc ++ [e]) ?_ ?_ hp_tail]
      · simp
      · exact fun b hb j hj => h1 b (List.mem_cons_of_mem _ hb) j hj
      · intro b hb a ha
        rcases List.mem_append.mp ha with ha | ha
        · exact h2 b (List.mem_cons_of_mem _ hb) a ha
        · simp only [List.mem_singleton] at ha
          rw [ha]
          exact (hp_head b hb).2
    · have hi : i ∉ seen := h1 e (List.mem_cons_self _ _) i he
      rw [show dedupLoop (e :: rest) seen acc =
          dedupLoop rest (i :: seen) (acc ++ [e]) by simp [dedupLoop, he, hi, hd']]
      rw [ih (i :: seen) (acc ++ [e]) ?_ ?_ hp_tail]
      · simp
      · intro b hb j hj
        simp only [List.mem_cons]
        push_neg
        refine ⟨?_, h1 b (List.mem_cons_of_mem _ hb) j hj⟩
        intro hji
        exact (hp_head b hb).1 i he (hji ▸ hj)
      · intro b hb a ha
        rcases List.mem_append.mp ha with ha | ha
        · exact h2 b (List.mem_cons_of_mem _ hb) a ha
        · simp only [List.mem_singleton] at ha
          rw [ha]
          exact (hp_head b hb).2

/-- Inversion of a successful run of the reconciler: the output is the
deduplication of the time filtered input, and it is nonempty. -/
theorem filter_ok_inv {now : Int} {entries : List Entry} {hours : Nat} {out : List Entry}
    (h : filter_and_clean_entries now entries hours = .ok out) :
    out = cleanedEntries (timeFiltered now hours entries) ∧ out ≠ [] := by
  simp only [filter_and_clean_entries] at h
  split_ifs at h with h1 h2 h3
  have ho : cleanedEntries (timeFiltered now hours entries) = out := Except.ok.inj h
  refine ⟨ho.symm, ?_⟩
  rw [← ho]
  simpa [List.isEmpty_iff] using h3

/-- Membership in the time filtered list. -/
theorem mem_timeFiltered {now : Int} {hours : Nat} {entries : List Entry} {e : Entry} :
    e ∈ timeFiltered now hours entries ↔
      e ∈ entries ∧ cutoffMs now hours ≤ entryTimeMs now e := by
  simp [timeFiltered]

end Beetroot

namespace Beetroot

/-! Auxiliary lemmas for segmentation, duration filtering and placement. -/

/-- Flattened index spans produced by the segmentation scan: starting from
an open range at range_start with the next index i, the spans cover exactly
the indices from range_start to the end of the remaining input. -/
theorem identifyGo_join (target_low target_high : ℚ) (rest : List Entry) :
    ∀ (cur : GlucoseStatus) (range_start i : Nat), range_start < i →
      ((identifyGo target_low target_high rest cur range_start i).map rangeSpan).flatten =
        List.range' range_start (i - range_start + rest.length) := by
  induction rest with
  | nil =>
    intro cur range_start i hlt
    simp only [identifyGo, List.map_cons, List.map_nil, List.flatten]
    simp [rangeSpan]
    congr 1
    omega
  | cons e rest ih =>
    intro cur range_start i hlt
    simp only [identifyGo]
    by_cases hs : GlucoseStatus.from_sgv e.sgv target_low target_high ≠ cur
    · rw [if_pos hs]
      simp only [List.map_cons, List.flatten_cons]
      rw [ih _ i (i + 1) (Nat.lt_succ_self i)]
      have h1 : rangeSpan (cur, range_start, i - 1) =
          List.range' range_start (i - range_start) := by
        simp [rangeSpan]
        congr 1
        omega
      rw [h1]
      have := List.range'_append range_start (i - range_start) (i + 1 - i + rest.length) 1
      rw [show range_start + 1 * (i - range_start) = i by omega] at this
      rw [this]
      congr 1
      simp only [List.length_cons]
      omega
    · rw [if_neg hs]
      rw [ih cur range_start (i + 1) (Nat.lt_succ_of_lt hlt)]
      congr 1
      simp only [List.length_cons]
      omega

/-- The first range emitted by the segmentation scan carries the current
status and the current start index. -/
theorem identifyGo_head (target_low target_high : ℚ) (rest : List Entry) :
    ∀ (cur : GlucoseStatus) (range_start i : Nat),
      ∃ b tail, identifyGo target_low target_high rest cur range_start i =
        (cur, range_start, b) :: tail := by
  induction rest with
  | nil => intro cur range_start i; exact ⟨i - 1, [], rfl⟩
  | cons e rest ih =>
    intro cur range_start i
    simp only [identifyGo]
    by_cases hs : GlucoseStatus.from_sgv e.sgv target_low target_high ≠ cur
    · rw [if_pos hs]
      exact ⟨i - 1, _, rfl⟩
    · rw [if_neg hs]
      exact ih cur range_start (i + 1)

/-- Consecutive ranges emitted by the segmentation scan carry different
statuses. -/
theorem identifyGo_chain (target_low target_high : ℚ) (rest : List Entry) :
    ∀ (cur : GlucoseStatus) (range_start i : Nat),
      (identifyGo target_low target_high rest cur range_start i).Chain'
        (fun a b => a.1 ≠ b.1) := by
  induction rest with
  | nil => intro cur range_start i; simp [identifyGo]
  | cons e rest ih =>
    intro cur range_start i
    simp only [identifyGo]
    by_cases hs : GlucoseStatus.from_sgv e.sgv target_low target_high ≠ cur
    · rw [if_pos hs]
      obtain ⟨b, tail, htail⟩ :=
        identifyGo_head target_low target_high rest
          (GlucoseStatus.from_sgv e.sgv target_low target_high) i (i + 1)
      rw [htail]
      refine List.chain'_cons.mpr ⟨?_, htail ▸ ih _ i (i + 1)⟩
      exact fun hc => hs hc.symm
    · rw [if_neg hs]
      exact ih cur range_start (i + 1)

/-- Every sample whose index falls inside a range emitted by the
segmentation scan classifies to the status of that range. -/
theorem identifyGo_classifies (target_low target_high : ℚ) (entries : List Entry)
    (rest : List Entry) :
    ∀ (cur : GlucoseStatus) (range_start i : Nat), range_start < i →
      rest = entries.drop i →
      (∀ j, range_start ≤ j → j < i → ∀ e, entries[j]? = some e →
        GlucoseStatus.from_sgv e.sgv target_low target_high = cur) →
      ∀ r ∈ identifyGo target_low target_high rest cur range_start i,
        ∀ j, r.2.1 ≤ j → j ≤ r.2.2 → ∀ e, entries[j]? = some e →
          GlucoseStatus.from_sgv e.sgv target_low target_high = r.1 := by
  induction rest with
  | nil =>
    intro cur range_start i hlt hdrop hrun r hr j hj1 hj2 e he
    simp only [identifyGo, List.mem_singleton] at hr
    subst hr
    exact hrun j hj1 (by simp at hj2 ⊢; omega) e he
  | cons e0 rest ih =>
    intro cur range_start i hlt hdrop hrun r hr j hj1 hj2 e he
    have he0 : entries[i]? = some e0 := by
      have := List.getElem?_drop entries i 0
      rw [← hdrop] at this
      simpa using this.symm
    have hdrop' : rest = entries.drop (i + 1) := by
      have := List.drop_drop 1 i entries
      rw [← hdrop] at this
      simpa using this
    simp only [identifyGo] at hr
    by_cases hs : GlucoseStatus.from_sgv e0.sgv target_low target_high ≠ cur
    · rw [if_pos hs] at hr
      rcases List.mem_cons.mp hr with hr | hr
      · subst hr
        exact hrun j hj1 (by simp at hj2 ⊢; omega) e he
      · refine ih _ i (i + 1) (Nat.lt_succ_self i) hdrop' ?_ r hr j hj1 hj2 e he
        intro k hk1 hk2 e' he'
        have hk : k = i := by omega
        subst hk
        rw [he0] at he'
        cases he'
        rfl
    · rw [if_neg hs] at hr
      push_neg at hs
      refine ih cur range_start (i + 1) (Nat.lt_succ_of_lt hlt) hdrop' ?_ r hr j hj1 hj2 e he
      intro k hk1 hk2 e' he'
      by_cases hki : k = i
      · subst hki
        rw [he0] at he'
        cases he'
        exact hs
      · exact hrun k hk1 (by omega) e' he'

/-- Membership in the duration filtered range list. -/
theorem mem_filter_ranges {now : Int} {status_ranges : List (GlucoseStatus × Nat × Nat)}
    {entries : List Entry} {r : GlucoseStatus × Nat × Nat} :
    r ∈ filter_ranges_by_duration now status_ranges entries ↔
      r ∈ status_ranges ∧ keepRange now entries r = true := by
  simp [filter_ranges_by_duration, List.mem_filter]

/-- The squared distance is symmetric. -/
theorem distSq_comm (p q : ℚ × ℚ) : distSq p q = distSq q p := by
  simp only [distSq]
  ring

/-- Characterization of an accepted candidate position: squared distance at
least the squared threshold against every occupied area, every plotted
point and every treatment marker. -/
theorem candidateOk_true_iff (config : StickerConfig) (occupied_areas : List (ℚ × ℚ × ℚ))
    (points_px treatment_positions : List (ℚ × ℚ)) (pos : ℚ × ℚ) :
    candidateOk config occupied_areas points_px treatment_positions pos = true ↔
      (∀ o ∈ occupied_areas, (config.sticker_radius + o.2.2) ^ 2 ≤ distSq pos (o.1, o.2.1)) ∧
      (∀ p ∈ points_px, config.curve_avoidance_distance ^ 2 ≤ distSq pos p) ∧
      (∀ t ∈ treatment_positions, config.treatment_avoidance_distance ^ 2 ≤ distSq pos t) := by
  simp only [candidateOk, Bool.and_eq_true, Bool.not_eq_true', List.any_eq_false,
    decide_eq_true_eq, not_lt]
  tauto

/-- The sticker placement loop preserves pairwise separation of the
occupied areas: every accepted position is checked against all previously
occupied areas before being appended. -/
theorem placementLoop_pairwise (config : StickerConfig)
    (points_px treatment_positions : List (ℚ × ℚ))
    (inner_plot_left inner_plot_top inner_plot_w inner_plot_h : ℚ)
    (candss : List (List (ℚ × ℚ))) :
    ∀ occupied_areas,
      occupied_areas.Pairwise
        (fun a b => (a.2.2 + b.2.2) ^ 2 ≤ distSq (a.1, a.2.1) (b.1, b.2.1)) →
      (placementLoop config points_px treatment_positions
          inner_plot_left inner_plot_top inner_plot_w inner_plot_h candss
          occupied_areas).Pairwise
        (fun a b => (a.2.2 + b.2.2) ^ 2 ≤ distSq (a.1, a.2.1) (b.1, b.2.1)) := by
  induction candss with
  | nil => intro occ hp; simpa [placementLoop] using hp
  | cons cands rest ih =>
    intro occ hp
    simp only [placementLoop]
    rcases hf : find_sticker_position cands config occ points_px treatment_positions
        inner_plot_left inner_plot_top inner_plot_w inner_plot_h with _ | c
    · exact ih occ hp
    · refine ih _ (List.pairwise_append.mpr ⟨hp, List.pairwise_singleton _ _, ?_⟩)
      intro a ha b hb
      simp only [List.mem_singleton] at hb
      rw [hb]
      rw [find_sticker_position] at hf
      have hok : candidateOk config occ points_px treatment_positions
          (toAbs inner_plot_left inner_plot_top inner_plot_w inner_plot_h c) = true := by
        simpa using List.find?_some hf
      have := ((candidateOk_true_iff _ _ _ _ _).mp hok).1 a ha
      rw [distSq_comm] at this
      calc (a.2.2 + config.sticker_radius) ^ 2
          = (config.sticker_radius + a.2.2) ^ 2 := by ring
        _ ≤ _ := this

end Beetroot

namespace Beetroot

/-! Claim theorems. -/

/-- Claim C1: the horizontal time-to-pixel projection is affine in the
timestamp. For any three timestamps t1 < t2 < t3 inside the rendered
window, the difference quotient of calculate_x_position over the pair
(t1, t2) equals the one over (t2, t3); both equal the constant slope
inner_plot_w / time_range_seconds, so equal time gaps always map to equal
pixel widths regardless of how many samples fall in them. -/
theorem C1_time_projection_affine
    (inner_plot_left inner_plot_w oldest_time time_range_seconds t1 t2 t3 : ℚ)
    (h12 : t1 < t2) (h23 : t2 < t3)
    (_hlo : oldest_time ≤ t1) (_hhi : t3 ≤ oldest_time + time_range_seconds) :
    (calculate_x_position inner_plot_left inner_plot_w oldest_time time_range_seconds t2 -
        calculate_x_position inner_plot_left inner_plot_w oldest_time time_range_seconds t1) /
      (t2 - t1) =
    (calculate_x_position inner_plot_left inner_plot_w oldest_time time_range_seconds t3 -
        calculate_x_position inner_plot_left inner_plot_w oldest_time time_range_seconds t2) /
      (t3 - t2) := by
  have h21 : t2 - t1 ≠ 0 := sub_ne_zero.mpr (ne_of_gt h12)
  have h32 : t3 - t2 ≠ 0 := sub_ne_zero.mpr (ne_of_gt h23)
  have key : ∀ a b : ℚ, b - a ≠ 0 →
      (calculate_x_position inner_plot_left inner_plot_w oldest_time time_range_seconds b -
        calculate_x_position inner_plot_left inner_plot_w oldest_time time_range_seconds a) /
      (b - a) = inner_plot_w / time_range_seconds := by
    intro a b hab
    simp only [calculate_x_position]
    by_cases hr : time_range_seconds = 0
    · simp [hr, div_zero]
    · field_simp
      ring
  rw [key t1 t2 h21, key t2 t3 h32]

/-- Witness for claim C1: the projection slopes agree on the concrete
window starting at 0 with a range of 3600 seconds, at the timestamps 0,
1800 and 3600. -/
theorem C1_time_projection_affine_witness :
    (calculate_x_position 0 3600 0 3600 1800 - calculate_x_position 0 3600 0 3600 0) /
      (1800 - 0) =
    (calculate_x_position 0 3600 0 3600 3600 - calculate_x_position 0 3600 0 3600 1800) /
      (3600 - 1800) :=
  C1_time_projection_affine 0 3600 0 3600 0 1800 3600
    (by decide) (by decide) (by decide) (by simp)

/-- Claim C2 as stated is false on the code: with same-kind samples of
value 100 at t = 0 s, 100.04 at t = 20 s and 100 at t = 40 s, the
reconciler does not drop the second sample, because the scaled values
10004 and 10000 differ, so the output is not the two-element list the
claim describes. -/
theorem C2_counterexample :
    filter_and_clean_entries 3600000 [scen2a, scen2b, scen2c] 1 ≠
      .ok [scen2a, scen2c] := by
  decide

/-- Claim C2 amended: with same-kind samples of value 100 at t = 0 s,
100.04 at t = 20 s and 100 at t = 40 s, the values 100 and 100.04 differ
at two-decimal precision (scaled comparison values 10000 and 10004), so
the second sample is not treated as a duplicate of the first and all three
samples are retained; in particular the sample at t = 40 s is outside the
30 second tolerance of the first sample and differs in value from the
second. -/
theorem C2_amended_all_retained :
    filter_and_clean_entries 3600000 [scen2a, scen2b, scen2c] 1 =
      .ok [scen2a, scen2b, scen2c] ∧
    scaleValue scen2a.sgv = 10000 ∧ scaleValue scen2b.sgv = 10004 ∧
    sameValue scen2b scen2a = false := by
  decide

/-- Claim C3: the reconciler fails with the NoEntries error (the NoData of
the specification) exactly when the result is empty at some filtering
stage: the input list is empty, nothing survives the time window, or
nothing survives deduplication; in every other case it returns a non-empty
sample list, and no other error is possible. -/
theorem C3_noData_iff_empty_stage (now : Int) (entries : List Entry) (hours : Nat) :
    ((∃ out, filter_and_clean_entries now entries hours = .ok out) ∨
      filter_and_clean_entries now entries hours = .error .NoEntries) ∧
    (filter_and_clean_entries now entries hours = .error .NoEntries ↔
      entries = [] ∨ timeFiltered now hours entries = [] ∨
        cleanedEntries (timeFiltered now hours entries) = []) ∧
    (∀ out, filter_and_clean_entries now entries hours = .ok out → out ≠ []) := by
  simp only [filter_and_clean_entries]
  split_ifs with h1 h2 h3
  · simp only [List.isEmpty_iff] at h1
    refine ⟨Or.inr rfl, ⟨fun _ => Or.inl h1, fun _ => rfl⟩, ?_⟩
    intro out hout
    exact absurd hout (by simp)
  · simp only [List.isEmpty_iff] at h2
    refine ⟨Or.inr rfl, ⟨fun _ => Or.inr (Or.inl h2), fun _ => rfl⟩, ?_⟩
    intro out hout
    exact absurd hout (by simp)
  · simp only [List.isEmpty_iff] at h3
    refine ⟨Or.inr rfl, ⟨fun _ => Or.inr (Or.inr h3), fun _ => rfl⟩, ?_⟩
    intro out hout
    exact absurd hout (by simp)
  · simp only [List.isEmpty_iff] at h1 h2 h3
    refine ⟨Or.inl ⟨_, rfl⟩, ⟨fun hc => absurd hc (by simp), fun hc => ?_⟩, ?_⟩
    · rcases hc with hc | hc | hc
      · exact absurd hc h1
      · exact absurd hc h2
      · exact absurd hc h3
    · intro out hout
      rw [← Except.ok.inj hout]
      exact h3

/-- Witness for claim C3: the empty input fails with NoEntries, and the
successful run on the duplicated-identifier input yields a non-empty
output. -/
theorem C3_noData_iff_empty_stage_witness :
    filter_and_clean_entries 3600000 ([] : List Entry) 1 = .error .NoEntries ∧
    [dupIdA] ≠ ([] : List Entry) :=
  ⟨(C3_noData_iff_empty_stage 3600000 [] 1).2.1.mpr (Or.inl rfl),
   (C3_noData_iff_empty_stage 3600000 [dupIdA, dupIdB] 1).2.2 [dupIdA] (by decide)⟩

/-- Claim C4: the reconciler output is a subsequence of the input
(retained samples keep their relative order and all occur in the input),
and every retained sample has its timestamp at or after the cutoff
now minus the window. -/
theorem C4_output_subsequence_windowed (now : Int) (entries : List Entry) (hours : Nat)
    (out : List Entry) (h : filter_and_clean_entries now entries hours = .ok out) :
    out.Sublist entries ∧ ∀ e ∈ out, cutoffMs now hours ≤ entryTimeMs now e := by
  obtain ⟨hout, -⟩ := filter_ok_inv h
  subst hout
  refine ⟨(cleanedEntries_sublist _).trans (List.filter_sublist _), ?_⟩
  intro e he
  exact (mem_timeFiltered.mp ((cleanedEntries_sublist _).subset he)).2

/-- Witness for claim C4: with a 3 hour window at now = 14400000 ms, the
sample 4 hours old is excluded and the recent sample is kept, the output
being a subsequence of the input with all timestamps at or after the
cutoff. -/
theorem C4_output_subsequence_windowed_witness :
    [freshEntry].Sublist [freshEntry, staleEntry] ∧
    ∀ e ∈ [freshEntry], cutoffMs 14400000 3 ≤ entryTimeMs 14400000 e :=
  C4_output_subsequence_windowed 14400000 [freshEntry, staleEntry] 3 [freshEntry] (by decide)

/-- Claim C5 as stated is false on the code: the reconciler does not sort,
so an out-of-order input that survives windowing and deduplication is
returned in its original order. Here the first consecutive output pair is
strictly increasing in time while the second is strictly decreasing, so
the output timestamps are not strictly monotone in either direction. -/
theorem C5_counterexample :
    filter_and_clean_entries 3600000 [ooA, ooB, ooC] 1 = .ok [ooA, ooB, ooC] ∧
    entryTimeMs 3600000 ooA < entryTimeMs 3600000 ooB ∧
    entryTimeMs 3600000 ooC < entryTimeMs 3600000 ooB := by
  decide

/-- Claim C5 amended: the reconciler preserves the relative input order,
so the output is strictly time-ordered whenever the input is; here stated
for a strictly newest-first input, the order in which the data source
supplies samples. -/
theorem C5_order_preserving (now : Int) (entries : List Entry) (hours : Nat)
    (out : List Entry) (h : filter_and_clean_entries now entries hours = .ok out)
    (hord : entries.Pairwise (fun a b => entryTimeMs now b < entryTimeMs now a)) :
    out.Pairwise (fun a b => entryTimeMs now b < entryTimeMs now a) := by
  obtain ⟨hout, -⟩ := filter_ok_inv h
  have hsub : out.Sublist entries := by
    rw [hout]
    exact (cleanedEntries_sublist _).trans (List.filter_sublist _)
  exact hord.sublist hsub

/-- Witness for claim C5 amended: a newest-first input stays strictly
time-ordered after reconciliation. -/
theorem C5_order_preserving_witness :
    [freshEntry].Pairwise (fun a b => entryTimeMs 14400000 b < entryTimeMs 14400000 a) :=
  C5_order_preserving 14400000 [freshEntry, staleEntry] 3 [freshEntry]
    (by decide) (by decide)

/-- Claim C6: reconciliation is idempotent. Applying the reconciler with
the same window length and reference instant to a list it has produced
returns that list unchanged: nothing more is dropped by the window filter,
the identifier check or the value and tolerance duplicate check. -/
theorem C6_reconcile_idempotent (now : Int) (entries : List Entry) (hours : Nat)
    (out : List Entry) (h : filter_and_clean_entries now entries hours = .ok out) :
    filter_and_clean_entries now out hours = .ok out := by
  obtain ⟨hout, hne⟩ := filter_ok_inv h
  have htime : ∀ e ∈ out, cutoffMs now hours ≤ entryTimeMs now e := by
    intro e he
    rw [hout] at he
    exact (mem_timeFiltered.mp ((cleanedEntries_sublist _).subset he)).2
  have hpw : out.Pairwise noDup := hout ▸ cleanedEntries_pairwise _
  have htf : timeFiltered now hours out = out :=
    List.filter_eq_self.mpr fun e he => decide_eq_true (htime e he)
  have hcl : cleanedEntries out = out := by
    unfold cleanedEntries
    rw [dedupLoop_fixed out [] [] (by simp) (by simp) hpw]
    simp
  simp only [filter_and_clean_entries, htf, hcl]
  simp [List.isEmpty_iff, hne]

/-- Witness for claim C6: reconciling the output of the
duplicated-identifier run returns it unchanged. -/
theorem C6_reconcile_idempotent_witness :
    filter_and_clean_entries 3600000 [dupIdA] 1 = .ok [dupIdA] :=
  C6_reconcile_idempotent 3600000 [dupIdA, dupIdB] 1 [dupIdA] (by decide)

/-- Claim C7: on a non-empty sample list the segmenter returns ranges
whose index spans are contiguous and together cover exactly the indices 0
through len - 1 with no gaps or overlaps, consecutive ranges carry
different statuses, and every sample inside a range classifies to the
status of that range. -/
theorem C7_segmentation_cover_classify (entries : List Entry)
    (target_low target_high : ℚ) (h : entries ≠ []) :
    (((identify_status_ranges entries target_low target_high).map rangeSpan).flatten =
      List.range entries.length) ∧
    (identify_status_ranges entries target_low target_high).Chain'
      (fun a b => a.1 ≠ b.1) ∧
    (∀ r ∈ identify_status_ranges entries target_low target_high,
      ∀ j, r.2.1 ≤ j → j ≤ r.2.2 → ∀ e, entries[j]? = some e →
        GlucoseStatus.from_sgv e.sgv target_low target_high = r.1) := by
  match entries, h with
  | e :: rest, _ =>
    refine ⟨?_, ?_, ?_⟩
    · rw [identify_status_ranges,
        identifyGo_join target_low target_high rest _ 0 1 Nat.one_pos]
      rw [List.range_eq_range']
      congr 1
      simp only [List.length_cons]
      omega
    · rw [identify_status_ranges]
      exact identifyGo_chain target_low target_high rest _ 0 1
    · rw [identify_status_ranges]
      refine identifyGo_classifies target_low target_high (e :: rest) rest _ 0 1 Nat.one_pos
        (by simp) ?_
      intro j hj1 hj2 e' he'
      have hj : j = 0 := by omega
      subst hj
      simp at he'
      rw [he']

/-- Witness for claim C7: the segmentation of the four-sample scenario
under thresholds 70 and 180 covers the indices 0 to 3, alternates
statuses, and classifies every covered sample. -/
theorem C7_segmentation_cover_classify_witness :
    (((identify_status_ranges segEntries 70 180).map rangeSpan).flatten =
      List.range segEntries.length) ∧
    (identify_status_ranges segEntries 70 180).Chain' (fun a b => a.1 ≠ b.1) ∧
    (∀ r ∈ identify_status_ranges segEntries 70 180,
      ∀ j, r.2.1 ≤ j → j ≤ r.2.2 → ∀ e, segEntries[j]? = some e →
        GlucoseStatus.from_sgv e.sgv 70 180 = r.1) :=
  C7_segmentation_cover_classify segEntries 70 180 (by decide)

/-- Claim C8: for ranges whose start and end indices address samples of
the entry list, the duration filter keeps every Low range regardless of
duration, keeps an InRange or High range exactly when the wall-clock time
between its start and end samples is at least 30 minutes (1800 seconds),
and preserves the order of the ranges it keeps, its output being a
subsequence of its input. -/
theorem C8_duration_filter (now : Int) (status_ranges : List (GlucoseStatus × Nat × Nat))
    (entries : List Entry) :
    (filter_ranges_by_duration now status_ranges entries).Sublist status_ranges ∧
    (∀ r ∈ status_ranges, ∀ es ee, entries[r.2.1]? = some es → entries[r.2.2]? = some ee →
      r.1 = .Low → r ∈ filter_ranges_by_duration now status_ranges entries) ∧
    (∀ r ∈ status_ranges, ∀ es ee, entries[r.2.1]? = some es → entries[r.2.2]? = some ee →
      r.1 ≠ .Low →
      (r ∈ filter_ranges_by_duration now status_ranges entries ↔
        1800 ≤ (entryTimeSec now ee - entryTimeSec now es).natAbs)) := by
  refine ⟨List.filter_sublist _, ?_, ?_⟩
  · rintro ⟨s, a, b⟩ hr es ee hes hee hlow
    refine mem_filter_ranges.mpr ⟨hr, ?_⟩
    simp only at hlow
    subst hlow
    simp [keepRange, hes, hee]
  · rintro ⟨s, a, b⟩ hr es ee hes hee hs
    rw [mem_filter_ranges]
    simp only at hes hee hs
    have hk : keepRange now entries (s, a, b) =
        decide (30 ≤ (entryTimeSec now ee - entryTimeSec now es).natAbs / 60) := by
      cases s with
      | Low => exact absurd rfl hs
      | InRange => simp [keepRange, hes, hee]
      | High => simp [keepRange, hes, hee]
    rw [hk]
    constructor
    · rintro ⟨-, hd⟩
      have := of_decide_eq_true hd
      have h60 : (0 : Nat) < 60 := by norm_num
      calc 1800 = 30 * 60 := by norm_num
        _ ≤ _ := (Nat.le_div_iff_mul_le h60).mp this
    · intro hd
      refine ⟨hr, decide_eq_true ?_⟩
      have h60 : (0 : Nat) < 60 := by norm_num
      rw [Nat.le_div_iff_mul_le h60]
      omega

/-- Witness for claim C8: in the segmentation scenario the 5 minute Low
range is kept while the zero-duration InRange range is dropped. -/
theorem C8_duration_filter_witness :
    (GlucoseStatus.Low, 0, 1) ∈ filter_ranges_by_duration 0 segRanges segEntries ∧
    ¬ (GlucoseStatus.InRange, 2, 2) ∈ filter_ranges_by_duration 0 segRanges segEntries :=
  ⟨(C8_duration_filter 0 segRanges segEntries).2.1 (GlucoseStatus.Low, 0, 1)
      (by decide) segA segB (by decide) (by decide) rfl,
   fun hmem => absurd
     (((C8_duration_filter 0 segRanges segEntries).2.2 (GlucoseStatus.InRange, 2, 2)
        (by decide) segC segC (by decide) (by decide) (by decide)).mp hmem)
     (by decide)⟩

/-- Claim C9: every candidate position accepted by the placement search is
at squared center distance at least the squared sum of the two radii from
every previously accepted area, at least the squared curve-avoidance
distance from every plotted sample point, and at least the squared
treatment-avoidance distance from every treatment or calibration marker;
consequently the occupied areas accumulated by the placement loop of one
render are pairwise separated by at least the sum of their radii. -/
theorem C9_placement_separation (config : StickerConfig)
    (points_px treatment_positions : List (ℚ × ℚ))
    (inner_plot_left inner_plot_top inner_plot_w inner_plot_h : ℚ) :
    (∀ candidates occupied_areas c,
      find_sticker_position candidates config occupied_areas points_px treatment_positions
          inner_plot_left inner_plot_top inner_plot_w inner_plot_h = some c →
        (∀ o ∈ occupied_areas,
          (config.sticker_radius + o.2.2) ^ 2 ≤
            distSq (toAbs inner_plot_left inner_plot_top inner_plot_w inner_plot_h c)
              (o.1, o.2.1)) ∧
        (∀ p ∈ points_px,
          config.curve_avoidance_distance ^ 2 ≤
            distSq (toAbs inner_plot_left inner_plot_top inner_plot_w inner_plot_h c) p) ∧
        (∀ t ∈ treatment_positions,
          config.treatment_avoidance_distance ^ 2 ≤
            distSq (toAbs inner_plot_left inner_plot_top inner_plot_w inner_plot_h c) t)) ∧
    (∀ candss,
      (placementLoop config points_px treatment_positions
          inner_plot_left inner_plot_top inner_plot_w inner_plot_h candss []).Pairwise
        (fun a b => (a.2.2 + b.2.2) ^ 2 ≤ distSq (a.1, a.2.1) (b.1, b.2.1))) := by
  constructor
  · intro candidates occupied_areas c hf
    rw [find_sticker_position] at hf
    exact (candidateOk_true_iff _ _ _ _ _).mp (by simpa using List.find?_some hf)
  · intro candss
    exact placementLoop_pairwise config points_px treatment_positions
      inner_plot_left inner_plot_top inner_plot_w inner_plot_h candss [] List.Pairwise.nil

/-- Witness for claim C9: on an empty canvas the first candidate is
accepted and vacuously satisfies all three separation conditions. -/
theorem C9_placement_separation_witness :
    (∀ o ∈ ([] : List (ℚ × ℚ × ℚ)),
      (StickerConfig.default.sticker_radius + o.2.2) ^ 2 ≤
        distSq (toAbs 0 0 100 100 (0, 0)) (o.1, o.2.1)) ∧
    (∀ p ∈ ([] : List (ℚ × ℚ)),
      StickerConfig.default.curve_avoidance_distance ^ 2 ≤
        distSq (toAbs 0 0 100 100 (0, 0)) p) ∧
    (∀ t ∈ ([] : List (ℚ × ℚ)),
      StickerConfig.default.treatment_avoidance_distance ^ 2 ≤
        distSq (toAbs 0 0 100 100 (0, 0)) t) :=
  (C9_placement_separation StickerConfig.default [] [] 0 0 100 100).1
    [(0, 0)] [] (0, 0) (by decide)

/-- Claim C10: during deduplication the timestamp comes from the numeric
date and mills fields with 0 substituted when both are absent, while the
window filter falls back to the parsed date string; hence the reconciled
output never contains two samples that both lack numeric timestamps, are
of the same kind and compare equal in value, however far apart their date
strings place them: of any such pair in the input, the later-listed sample
is dropped. -/
theorem C10_missing_numeric_timestamp_dedup (now : Int) (entries : List Entry)
    (hours : Nat) (out : List Entry)
    (h : filter_and_clean_entries now entries hours = .ok out) :
    out.Pairwise (fun a b =>
      a.date = none → a.mills = none → b.date = none → b.mills = none →
        sameValue b a = false) := by
  obtain ⟨hout, -⟩ := filter_ok_inv h
  have hpw : out.Pairwise noDup := hout ▸ cleanedEntries_pairwise _
  refine hpw.imp ?_
  intro a b hab had ham hbd hbm
  have hts : dedupTimestamp a = 0 := by
    simp [dedupTimestamp, Entry.dateOrMills, had, ham]
  have hts' : dedupTimestamp b = 0 := by
    simp [dedupTimestamp, Entry.dateOrMills, hbd, hbm]
  have hd := hab.2
  simpa [dupRel, hts, hts'] using hd

/-- Witness for claim C10: two equal-valued samples without numeric
timestamps whose date strings parse 400 seconds apart both pass the window
filter, yet only the first survives deduplication. -/
theorem C10_missing_numeric_timestamp_dedup_witness :
    filter_and_clean_entries 3600000 [noTsA, noTsB] 1 = .ok [noTsA] ∧
    [noTsA].Pairwise (fun a b =>
      a.date = none → a.mills = none → b.date = none → b.mills = none →
        sameValue b a = false) :=
  ⟨by decide,
   C10_missing_numeric_timestamp_dedup 3600000 [noTsA, noTsB] 1 [noTsA] (by decide)⟩

end Beetroot
